import Mathlib

/-!
Shallow embedding of the anchored-bounds box model of `src/axpositioning.py`
(class `PositioningAxes`).  Real numbers are modelled by `ℚ`; a Python
division that can raise `ZeroDivisionError` is modelled by a checked
division returning `Except`.  The spec's error vocabulary is used for the
error cases: `degenerateBox` stands for the `ZeroDivisionError` raised by
an aspect computation against a zero-sized dimension, `invalidAnchorName`
for the `KeyError('invalid position name')` and `invalidAnchorType` for
the `TypeError('invalid position type')` of `set_anchor_point`.
-/

/-- Error kinds of the box model (spec names for the exceptions the code
raises, see the module comment). -/
inductive PosErr where
  | degenerateBox
  | invalidAnchorName
  | invalidAnchorType
  deriving DecidableEq, Repr

/-- Checked division: Python `a / b` raises `ZeroDivisionError` when `b = 0`. -/
def qdiv (a b : ℚ) : Except PosErr ℚ :=
  if b = 0 then .error .degenerateBox else .ok (a / b)

/-- State of a `PositioningAxes` object: the stored bounds
`(xll, yll, w, h)`, the anchor point `(ax, ay)` (field `_anchor_point`),
the aspect-lock flag (field `_locked_aspect`) and the owning figure's size
in inches (`figure.get_size_inches()`), which the object reads but never
writes. -/
structure PositioningAxes where
  xll : ℚ
  yll : ℚ
  w : ℚ
  h : ℚ
  anchorX : ℚ
  anchorY : ℚ
  lockedAspect : Bool
  figW : ℚ
  figH : ℚ
  deriving DecidableEq, Repr

namespace PositioningAxes

/-- Source property `bounds`: returns `(xll, yll, w, h)`. -/
def bounds (a : PositioningAxes) : ℚ × ℚ × ℚ × ℚ :=
  (a.xll, a.yll, a.w, a.h)

/-- Source `x2xll`: convert x position to xll based on anchor,
`x - self.w * self._anchor_point[0]`. -/
def x2xll (a : PositioningAxes) (x : ℚ) : ℚ :=
  x - a.w * a.anchorX

/-- Source `xll2x`: convert xll to x position based on anchor,
`xll + self.w * self._anchor_point[0]`. -/
def xll2x (a : PositioningAxes) (xll : ℚ) : ℚ :=
  xll + a.w * a.anchorX

/-- Source `y2yll`: `y - self.h * self._anchor_point[1]`. -/
def y2yll (a : PositioningAxes) (y : ℚ) : ℚ :=
  y - a.h * a.anchorY

/-- Source `yll2y`: `yll + self.h * self._anchor_point[1]`. -/
def yll2y (a : PositioningAxes) (yll : ℚ) : ℚ :=
  yll + a.h * a.anchorY

/-- Source property getter `x`: `self.xll2x(self.bounds[0])`. -/
def getX (a : PositioningAxes) : ℚ :=
  a.xll2x a.xll

/-- Source property setter `x`: keeps `yll, w, h`, sets `xll = x2xll x`. -/
def setX (a : PositioningAxes) (x : ℚ) : PositioningAxes :=
  { a with xll := a.x2xll x }

/-- Source property getter `y`: `self.yll2y(self.bounds[1])`. -/
def getY (a : PositioningAxes) : ℚ :=
  a.yll2y a.yll

/-- Source property setter `y`: keeps `xll, w, h`, sets `yll = y2yll y`. -/
def setY (a : PositioningAxes) (y : ℚ) : PositioningAxes :=
  { a with yll := a.y2yll y }

/-- Source property `figaspect`: `fw / fh` from `figure.get_size_inches()`. -/
def figaspect (a : PositioningAxes) : Except PosErr ℚ :=
  qdiv a.figW a.figH

/-- Source property `aspect`: real aspect ratio of figure and axes together,
`self.figaspect * (aw / ah)` with `(_, _, aw, ah) = self.bounds`. -/
def aspect (a : PositioningAxes) : Except PosErr ℚ := do
  let fa ← a.figaspect
  let r ← qdiv a.w a.h
  pure (fa * r)

/-- Source property `axaspect`: `self.figaspect / self.aspect`. -/
def axaspect (a : PositioningAxes) : Except PosErr ℚ := do
  let fa ← a.figaspect
  let asp ← a.aspect
  qdiv fa asp

/-- Source property setter `w`: adjusts `xll` for the anchor, and when the
aspect is locked recomputes `h = w / self.axaspect` (from the bounds before
the resize) and adjusts `yll`; the single `self.bounds = ...` write is the
last statement, so an exception leaves the object unchanged. -/
def setW (a : PositioningAxes) (w : ℚ) : Except PosErr PositioningAxes :=
  let xll := a.xll + a.anchorX * (a.w - w)
  if a.lockedAspect then do
    let axa ← a.axaspect
    let h ← qdiv w axa
    let yll := a.yll + a.anchorY * (a.h - h)
    pure { a with xll := xll, yll := yll, w := w, h := h }
  else
    pure { a with xll := xll, w := w }

/-- Source property setter `h`: adjusts `yll` for the anchor, and when the
aspect is locked recomputes `w = h * self.axaspect` (from the bounds before
the resize) and adjusts `xll`; the single bounds write is last. -/
def setH (a : PositioningAxes) (h : ℚ) : Except PosErr PositioningAxes :=
  let yll := a.yll + a.anchorY * (a.h - h)
  if a.lockedAspect then do
    let axa ← a.axaspect
    let w := h * axa
    let xll := a.xll + a.anchorX * (a.w - w)
    pure { a with xll := xll, yll := yll, w := w, h := h }
  else
    pure { a with yll := yll, h := h }

/-- State of the object after an assignment to the `w` property: Python
mutates in place, and since the single bounds write is the setter's last
statement, a raising call leaves the object as it was. -/
def applyW (a : PositioningAxes) (w : ℚ) : PositioningAxes :=
  match a.setW w with
  | .ok a' => a'
  | .error _ => a

/-- State of the object after an assignment to the `h` property (see
`applyW`). -/
def applyH (a : PositioningAxes) (h : ℚ) : PositioningAxes :=
  match a.setH h with
  | .ok a' => a'
  | .error _ => a

/-- Source `lock_aspect`: sets `self._locked_aspect = b`. -/
def lock_aspect (a : PositioningAxes) (b : Bool) : PositioningAxes :=
  { a with lockedAspect := b }

/-- Source `set_aspect_ratio`: `axaspect = A / self.figaspect`; if
`fix_height` then `self.w = self.h * axaspect` else
`self.h = self.w / axaspect`. -/
def set_aspect_ratio (a : PositioningAxes) (A : ℚ) (fix_height : Bool) :
    Except PosErr PositioningAxes := do
  let fa ← a.figaspect
  let axa ← qdiv A fa
  if fix_height then
    a.setW (a.h * axa)
  else do
    let h ← qdiv a.w axa
    a.setH h

end PositioningAxes

/-- Argument passed to `set_anchor_point`: a Python string, a tuple of
numbers (of any length), or any other value (e.g. a list of numbers, which
is neither a `str` nor a `tuple`). -/
inductive AnchorArg where
  | str (s : String)
  | tuple (xs : List ℚ)
  | other
  deriving DecidableEq, Repr

/-- Source `posdict` of `set_anchor_point`:
`dict(ll=(0,0), ul=(0,1), ur=(1,1), lr=(1,0), c=(.5,.5))`. -/
def posdict (s : String) : Option (ℚ × ℚ) :=
  if s = "ll" then some (0, 0)
  else if s = "ul" then some (0, 1)
  else if s = "ur" then some (1, 1)
  else if s = "lr" then some (1, 0)
  else if s = "c" then some (1/2, 1/2)
  else none

/-- Source `set_anchor_point` validation: a string is looked up in
`posdict` (raising `KeyError` when absent), then any non-tuple raises
`TypeError`; the accepted value (a tuple of numbers, of any length) is
stored as `_anchor_point`. -/
def set_anchor_point (pos : AnchorArg) : Except PosErr (List ℚ) :=
  match pos with
  | .str s =>
    match posdict s with
    | some (x, y) => .ok [x, y]
    | none => .error .invalidAnchorName
  | .tuple xs => .ok xs
  | .other => .error .invalidAnchorType

namespace PositioningAxes

/-- Effect of `set_anchor_point` on an object: the validated value is
stored in `_anchor_point` and nothing else changes.  The structure keeps
the two coordinates the other operations read (`_anchor_point[0]` and
`_anchor_point[1]`); a stored tuple of another length is outside the
well-formed states the claims quantify over, and the anchor fields are
left as they were for it. -/
def setAnchor (a : PositioningAxes) (pos : AnchorArg) :
    Except PosErr PositioningAxes := do
  let xs ← set_anchor_point pos
  match xs with
  | [x, y] => pure { a with anchorX := x, anchorY := y }
  | _ => pure a

end PositioningAxes

/-- The box of the repository's tests: figure `6 × 6` inches, bounds
`(.1, .1, .8, .8)`, anchor `c`, aspect not locked. -/
def boxC : PositioningAxes :=
  ⟨1/10, 1/10, 8/10, 8/10, 1/2, 1/2, false, 6, 6⟩

/-- The same box with anchor `ll`. -/
def boxLL : PositioningAxes :=
  ⟨1/10, 1/10, 8/10, 8/10, 0, 0, false, 6, 6⟩

/-- A concrete aspect-locked box on a square figure: bounds `(0, 0, 2, 1)`,
anchor `ll`, real aspect ratio `2`. -/
def cbox : PositioningAxes :=
  ⟨0, 0, 2, 1, 0, 0, true, 1, 1⟩

/-- The unlocked variant of `cbox`. -/
def ubox : PositioningAxes :=
  ⟨0, 0, 2, 1, 0, 0, false, 1, 1⟩

/-- A degenerate aspect-locked box with zero height. -/
def degbox : PositioningAxes :=
  ⟨0, 0, 1, 0, 0, 0, true, 1, 1⟩

namespace PositioningAxes

lemma figaspect_ok (a : PositioningAxes) (hfh : a.figH ≠ 0) :
    a.figaspect = .ok (a.figW / a.figH) := by
  simp [figaspect, qdiv, hfh]

lemma aspect_ok (a : PositioningAxes) (hfh : a.figH ≠ 0) (hh : a.h ≠ 0) :
    a.aspect = .ok (a.figW / a.figH * (a.w / a.h)) := by
  simp [aspect, figaspect_ok a hfh, qdiv, hh, bind, Except.bind, pure,
    Except.pure]

lemma axaspect_ok (a : PositioningAxes) (hfw : a.figW ≠ 0)
    (hfh : a.figH ≠ 0) (hw : a.w ≠ 0) (hh : a.h ≠ 0) :
    a.axaspect = .ok (a.h / a.w) := by
  have hfa : a.figW / a.figH ≠ 0 := div_ne_zero hfw hfh
  have hwh : a.w / a.h ≠ 0 := div_ne_zero hw hh
  have hne : a.figW / a.figH * (a.w / a.h) ≠ 0 := mul_ne_zero hfa hwh
  simp [axaspect, figaspect_ok a hfh, aspect_ok a hfh hh, qdiv, hne, bind,
    Except.bind]
  field_simp
  ring

lemma setW_unlocked_ok (a : PositioningAxes) (hl : a.lockedAspect = false)
    (w' : ℚ) :
    a.setW w' = .ok { a with xll := a.xll + a.anchorX * (a.w - w'), w := w' } := by
  simp [setW, hl, pure, Except.pure]

lemma setW_locked_ok (a : PositioningAxes) (hl : a.lockedAspect = true)
    (hfw : a.figW ≠ 0) (hfh : a.figH ≠ 0) (hw : a.w ≠ 0) (hh : a.h ≠ 0)
    (w' : ℚ) :
    a.setW w' = .ok { a with
      xll := a.xll + a.anchorX * (a.w - w'),
      yll := a.yll + a.anchorY * (a.h - w' * (a.w / a.h)),
      w := w',
      h := w' * (a.w / a.h) } := by
  have hhw : a.h / a.w ≠ 0 := div_ne_zero hh hw
  have hdiv : w' / (a.h / a.w) = w' * (a.w / a.h) := by
    rw [div_div_eq_mul_div, mul_div_assoc]
  simp [setW, hl, axaspect_ok a hfw hfh hw hh, qdiv, hhw, bind, Except.bind,
    pure, Except.pure, Except.map, hdiv]

lemma setH_unlocked_ok (a : PositioningAxes) (hl : a.lockedAspect = false)
    (h' : ℚ) :
    a.setH h' = .ok { a with yll := a.yll + a.anchorY * (a.h - h'), h := h' } := by
  simp [setH, hl, pure, Except.pure]

lemma setH_locked_ok (a : PositioningAxes) (hl : a.lockedAspect = true)
    (hfw : a.figW ≠ 0) (hfh : a.figH ≠ 0) (hw : a.w ≠ 0) (hh : a.h ≠ 0)
    (h' : ℚ) :
    a.setH h' = .ok { a with
      xll := a.xll + a.anchorX * (a.w - h' * (a.h / a.w)),
      yll := a.yll + a.anchorY * (a.h - h'),
      w := h' * (a.h / a.w),
      h := h' } := by
  simp [setH, hl, axaspect_ok a hfw hfh hw hh, qdiv, bind, Except.bind, pure,
    Except.pure]

end PositioningAxes

/-- C6: for every box and anchor, `get_x()` returns `xll + ax*w` and
`get_y()` returns `yll + ay*h`; with anchor `c` and bounds
`(.1, .1, .8, .8)` the reads give `x = .5, y = .5, w = .8, h = .8`, and
with anchor `ll` the same bounds give `x = .1, y = .1`. -/
theorem c6_getters_anchor_relative :
    (∀ a : PositioningAxes,
      a.getX = a.xll + a.anchorX * a.w ∧ a.getY = a.yll + a.anchorY * a.h) ∧
    (boxC.getX, boxC.getY, boxC.w, boxC.h) = (1/2, 1/2, 8/10, 8/10) ∧
    (boxLL.getX, boxLL.getY) = (1/10, 1/10) := by
  refine ⟨fun a => ⟨?_, ?_⟩, ?_, ?_⟩
  case refine_3 =>
    norm_num [boxC, PositioningAxes.getX, PositioningAxes.xll2x,
      PositioningAxes.getY, PositioningAxes.yll2y]
  case refine_4 =>
    norm_num [boxLL, PositioningAxes.getX, PositioningAxes.xll2x,
      PositioningAxes.getY, PositioningAxes.yll2y]
  · simp [PositioningAxes.getX, PositioningAxes.xll2x]
    ring
  · simp [PositioningAxes.getY, PositioningAxes.yll2y]
    ring

/-- C7: for every box and every anchor, `set_x(get_x())` leaves the bounds
exactly unchanged, and likewise for `y`: the anchor-relative conversion and
its inverse compose to the identity. -/
theorem c7_set_get_roundtrip :
    ∀ a : PositioningAxes, a.setX a.getX = a ∧ a.setY a.getY = a := by
  intro a
  cases a
  constructor
  · simp [PositioningAxes.setX, PositioningAxes.getX, PositioningAxes.x2xll,
      PositioningAxes.xll2x]
  · simp [PositioningAxes.setY, PositioningAxes.getY, PositioningAxes.y2yll,
      PositioningAxes.yll2y]

/-- C9: for every box, anchor and value `v`, `set_x(v)` then `get_x()`
returns exactly `v` with `w` and `h` unchanged, and symmetrically for
`set_y`/`get_y`. -/
theorem c9_get_set_identity :
    ∀ (a : PositioningAxes) (v : ℚ),
      ((a.setX v).getX = v ∧ (a.setX v).w = a.w ∧ (a.setX v).h = a.h) ∧
      ((a.setY v).getY = v ∧ (a.setY v).w = a.w ∧ (a.setY v).h = a.h) := by
  intro a v
  refine ⟨⟨?_, rfl, rfl⟩, ⟨?_, rfl, rfl⟩⟩
  · simp [PositioningAxes.setX, PositioningAxes.getX, PositioningAxes.x2xll,
      PositioningAxes.xll2x]
  · simp [PositioningAxes.setY, PositioningAxes.getY, PositioningAxes.y2yll,
      PositioningAxes.yll2y]

/-- C8: `set_anchor` with any accepted anchor leaves the stored bounds
`(xll, yll, w, h)` unchanged; sequentially applying anchors
`c, ur, ul, lr` to the box with bounds `(.1, .1, .8, .8)` yields
`(x, y, w, h)` readings `(.5, .5, .8, .8)`, `(.9, .9, .8, .8)`,
`(.1, .9, .8, .8)`, `(.9, .1, .8, .8)`, with `w` and `h` unchanged across
every switch. -/
theorem c8_anchor_switch_preserves_bounds :
    (∀ (a : PositioningAxes) (p : AnchorArg) (a' : PositioningAxes),
      a.setAnchor p = .ok a' → a'.bounds = a.bounds) ∧
    ((boxLL.setAnchor (.str "c")).map
        (fun a => (a.getX, a.getY, a.w, a.h)) =
      .ok (1/2, 1/2, 8/10, 8/10)) ∧
    (((boxLL.setAnchor (.str "c")).bind
        (fun a => a.setAnchor (.str "ur"))).map
        (fun a => (a.getX, a.getY, a.w, a.h)) =
      .ok (9/10, 9/10, 8/10, 8/10)) ∧
    ((((boxLL.setAnchor (.str "c")).bind
        (fun a => a.setAnchor (.str "ur"))).bind
        (fun a => a.setAnchor (.str "ul"))).map
        (fun a => (a.getX, a.getY, a.w, a.h)) =
      .ok (1/10, 9/10, 8/10, 8/10)) ∧
    (((((boxLL.setAnchor (.str "c")).bind
        (fun a => a.setAnchor (.str "ur"))).bind
        (fun a => a.setAnchor (.str "ul"))).bind
        (fun a => a.setAnchor (.str "lr"))).map
        (fun a => (a.getX, a.getY, a.w, a.h)) =
      .ok (9/10, 1/10, 8/10, 8/10)) := by
  refine ⟨?_, ?_, ?_, ?_, ?_⟩
  case refine_1 =>
    intro a p a' hok
    rcases hpt : set_anchor_point p with e | xs
    · simp [PositioningAxes.setAnchor, hpt, bind, Except.bind] at hok
    · simp [PositioningAxes.setAnchor, hpt, bind, Except.bind, pure,
        Except.pure] at hok
      rcases xs with _ | ⟨x, _ | ⟨y, _ | _⟩⟩ <;>
        simp at hok <;>
        simp [← hok, PositioningAxes.bounds]
  all_goals
    norm_num +decide [PositioningAxes.setAnchor, set_anchor_point, posdict,
      PositioningAxes.getX, PositioningAxes.getY, PositioningAxes.xll2x,
      PositioningAxes.yll2y, boxLL, bind, Except.bind, pure, Except.pure,
      Except.map]

/-- Witness for C8: applying the bounds-preservation part to the box of the
tests and the preset anchor `c`. -/
theorem c8_witness :
    ({ boxLL with anchorX := 1/2, anchorY := 1/2 } : PositioningAxes).bounds
      = boxLL.bounds :=
  c8_anchor_switch_preserves_bounds.1 boxLL (.str "c") _ rfl

/-- Counterexample to C4: the 3-tuple `(1, 2, 3)` is not a 2-tuple of
numbers, so the claim requires `set_anchor` to fail with
`InvalidAnchorType` on it, yet `set_anchor_point` accepts it (only the
`tuple` type is checked, never the length). -/
theorem c4_counterexample :
    set_anchor_point (.tuple [1, 2, 3]) = .ok [1, 2, 3] ∧
    set_anchor_point (.tuple [1, 2, 3]) ≠ .error .invalidAnchorType := by
  constructor
  · rfl
  · simp [set_anchor_point]

/-- C4 (amended): `set_anchor` fails with `InvalidAnchorName` exactly for
strings outside the five presets, fails with `InvalidAnchorType` exactly
for values that are neither strings nor tuples, and accepts every tuple of
numbers of any length, including pairs with coordinates outside
`[0, 1]`. -/
theorem c4_anchor_validation :
    (∀ s : String,
      set_anchor_point (.str s) = .error .invalidAnchorName ↔
        s ≠ "ll" ∧ s ≠ "ul" ∧ s ≠ "ur" ∧ s ≠ "lr" ∧ s ≠ "c") ∧
    (∀ p : AnchorArg,
      set_anchor_point p = .error .invalidAnchorType ↔ p = .other) ∧
    (∀ xs : List ℚ, set_anchor_point (.tuple xs) = .ok xs) := by
  refine ⟨?_, ?_, fun xs => rfl⟩
  · intro s
    simp only [set_anchor_point, posdict]
    split_ifs with h1 h2 h3 h4 h5 <;> simp_all
  · intro p
    cases p with
    | str s =>
      simp only [set_anchor_point, posdict]
      split_ifs <;> simp
    | tuple xs => simp [set_anchor_point]
    | other => simp [set_anchor_point]

lemma aspect_err_of_h_eq_zero (a : PositioningAxes) (h0 : a.h = 0) :
    a.aspect = .error .degenerateBox := by
  by_cases hfh : a.figH = 0 <;>
    simp [PositioningAxes.aspect, PositioningAxes.figaspect, qdiv, hfh, h0,
      bind, Except.bind]

lemma axaspect_err_of_h_eq_zero (a : PositioningAxes) (h0 : a.h = 0) :
    a.axaspect = .error .degenerateBox := by
  by_cases hfh : a.figH = 0 <;>
    simp [PositioningAxes.axaspect, PositioningAxes.figaspect,
      aspect_err_of_h_eq_zero a h0, qdiv, hfh, bind, Except.bind]

/-- C2: with zero height, `get_aspect_ratio` and (under aspect lock) the
`w` and `h` setters fail with `DegenerateBoxError`, and the bounds are
unchanged by the failed call. -/
theorem c2_zero_height_degenerate :
    ∀ a : PositioningAxes, a.h = 0 →
      a.aspect = .error .degenerateBox ∧
      (a.lockedAspect = true →
        ∀ v : ℚ,
          (a.setW v = .error .degenerateBox ∧ a.applyW v = a) ∧
          (a.setH v = .error .degenerateBox ∧ a.applyH v = a)) := by
  intro a h0
  refine ⟨aspect_err_of_h_eq_zero a h0, fun hl v => ?_⟩
  have hW : a.setW v = .error .degenerateBox := by
    simp [PositioningAxes.setW, hl, axaspect_err_of_h_eq_zero a h0, bind,
      Except.bind]
  have hH : a.setH v = .error .degenerateBox := by
    simp [PositioningAxes.setH, hl, axaspect_err_of_h_eq_zero a h0, bind,
      Except.bind]
  exact ⟨⟨hW, by simp [PositioningAxes.applyW, hW]⟩,
    ⟨hH, by simp [PositioningAxes.applyH, hH]⟩⟩

/-- Witness for C2 at the degenerate box `(0, 0, 1, 0)` with aspect lock. -/
theorem c2_witness :
    degbox.aspect = .error .degenerateBox ∧
    degbox.setW 2 = .error .degenerateBox ∧ degbox.applyW 2 = degbox ∧
    degbox.setH 2 = .error .degenerateBox ∧ degbox.applyH 2 = degbox :=
  ⟨(c2_zero_height_degenerate degbox rfl).1,
    ((c2_zero_height_degenerate degbox rfl).2 rfl 2).1.1,
    ((c2_zero_height_degenerate degbox rfl).2 rfl 2).1.2,
    ((c2_zero_height_degenerate degbox rfl).2 rfl 2).2.1,
    ((c2_zero_height_degenerate degbox rfl).2 rfl 2).2.2⟩

/-- C5: setting the width to `w'` computes `xll' = xll + ax*(w_old - w')`;
when the aspect is locked it computes `h' = w' / axis_aspect` with
`axis_aspect = container_aspect / real_aspect_ratio` taken from the bounds
before the resize, and `yll' = yll + ay*(h_old - h')`; the new bounds are
committed in one write (the single `.ok` state). -/
theorem c5_w_setter_formulas :
    ∀ (a : PositioningAxes) (w' : ℚ),
      (a.lockedAspect = false →
        a.setW w' =
          .ok { a with xll := a.xll + a.anchorX * (a.w - w'), w := w' }) ∧
      (a.lockedAspect = true → a.w ≠ 0 → a.h ≠ 0 → a.figW ≠ 0 →
        a.figH ≠ 0 →
        a.setW w' = .ok { a with
          xll := a.xll + a.anchorX * (a.w - w'),
          yll := a.yll + a.anchorY *
            (a.h - w' / (a.figW / a.figH / (a.figW / a.figH * (a.w / a.h)))),
          w := w',
          h := w' / (a.figW / a.figH / (a.figW / a.figH * (a.w / a.h))) }) := by
  intro a w'
  constructor
  · intro hl
    exact a.setW_unlocked_ok hl w'
  · intro hl hw hh hfw hfh
    have hax : a.figW / a.figH / (a.figW / a.figH * (a.w / a.h)) = a.h / a.w := by
      field_simp
      ring
    have key : w' / (a.figW / a.figH / (a.figW / a.figH * (a.w / a.h))) =
        w' * (a.w / a.h) := by
      rw [hax, div_div_eq_mul_div, mul_div_assoc]
    rw [a.setW_locked_ok hl hfw hfh hw hh w', key]

/-- Witness for C5: the unlocked branch at `ubox` and the locked branch at
`cbox`, both with new width `4`. -/
theorem c5_witness :
    (ubox.setW 4 =
      .ok { ubox with xll := ubox.xll + ubox.anchorX * (ubox.w - 4), w := 4 }) ∧
    (cbox.setW 4 = .ok { cbox with
      xll := cbox.xll + cbox.anchorX * (cbox.w - 4),
      yll := cbox.yll + cbox.anchorY *
        (cbox.h - 4 / (cbox.figW / cbox.figH /
          (cbox.figW / cbox.figH * (cbox.w / cbox.h)))),
      w := 4,
      h := 4 / (cbox.figW / cbox.figH /
        (cbox.figW / cbox.figH * (cbox.w / cbox.h))) }) :=
  ⟨(c5_w_setter_formulas ubox 4).1 rfl,
    (c5_w_setter_formulas cbox 4).2 rfl (by norm_num [cbox])
      (by norm_num [cbox]) (by norm_num [cbox]) (by norm_num [cbox])⟩

lemma setW_locked_aspect (a : PositioningAxes) (hl : a.lockedAspect = true)
    (hfw : a.figW ≠ 0) (hfh : a.figH ≠ 0) (hw : a.w ≠ 0) (hh : a.h ≠ 0)
    (w' : ℚ) (hw' : w' ≠ 0) :
    (a.setW w').bind PositioningAxes.aspect =
      .ok (a.figW / a.figH * (a.h / a.w)) := by
  rw [a.setW_locked_ok hl hfw hfh hw hh w']
  simp only [Except.bind]
  rw [PositioningAxes.aspect_ok
    { a with
      xll := a.xll + a.anchorX * (a.w - w'),
      yll := a.yll + a.anchorY * (a.h - w' * (a.w / a.h)),
      w := w',
      h := w' * (a.w / a.h) }
    hfh (mul_ne_zero hw' (div_ne_zero hw hh))]
  congr 1
  dsimp only
  field_simp
  ring

/-- Counterexample to C1: `cbox` has real aspect ratio `2`; after the
locked resize `setW 4` the real aspect ratio reads back `1/2`, not the
pre-resize value `2` (the anchor stays put, but the ratio is inverted
through the container aspect). -/
theorem c1_counterexample :
    cbox.aspect = .ok 2 ∧
    (cbox.setW 4).bind PositioningAxes.aspect = .ok (1/2) ∧
    (1/2 : ℚ) ≠ 2 := by
  refine ⟨?_, ?_, by norm_num⟩ <;>
    norm_num [cbox, PositioningAxes.aspect, PositioningAxes.figaspect,
      PositioningAxes.axaspect, PositioningAxes.setW, qdiv, bind,
      Except.bind, pure, Except.pure]

/-- C1 (amended): with aspect lock and nonzero width, height, container
dimensions and new width, setting `w` changes `h` so that
`get_aspect_ratio()` afterwards returns the container aspect squared
divided by the pre-resize real aspect ratio (not the pre-resize ratio
itself), while the anchor point's `(x, y)` reads back unchanged. -/
theorem c1_locked_w_anchor_preserved_aspect_inverted :
    ∀ (a : PositioningAxes) (w' : ℚ) (a' : PositioningAxes) (A0 : ℚ),
      a.lockedAspect = true → a.w ≠ 0 → a.h ≠ 0 → a.figW ≠ 0 → a.figH ≠ 0 →
      w' ≠ 0 → a.setW w' = .ok a' → a.aspect = .ok A0 →
      (a'.aspect = .ok ((a.figW / a.figH) ^ 2 / A0) ∧
        a'.getX = a.getX ∧ a'.getY = a.getY) := by
  intro a w' a' A0 hl hw hh hfw hfh hw' hset hA
  have haspect := setW_locked_aspect a hl hfw hfh hw hh w' hw'
  rw [hset] at haspect
  simp only [Except.bind] at haspect
  have hA0 : A0 = a.figW / a.figH * (a.w / a.h) := by
    have hok := a.aspect_ok hfh hh
    rw [hA] at hok
    exact Except.ok.inj hok
  rw [a.setW_locked_ok hl hfw hfh hw hh w'] at hset
  injection hset with hrec
  subst hrec
  refine ⟨?_, ?_, ?_⟩
  · rw [haspect, hA0]
    congr 1
    field_simp
    ring
  · simp [PositioningAxes.getX, PositioningAxes.xll2x]
    ring
  · simp [PositioningAxes.getY, PositioningAxes.yll2y]
    ring

/-- Witness for amended C1: the locked box `cbox` resized to width `4`. -/
theorem c1_witness :
    (⟨0, 0, 4, 8, 0, 0, true, 1, 1⟩ : PositioningAxes).aspect =
      .ok ((cbox.figW / cbox.figH) ^ 2 / 2) ∧
    (⟨0, 0, 4, 8, 0, 0, true, 1, 1⟩ : PositioningAxes).getX = cbox.getX ∧
    (⟨0, 0, 4, 8, 0, 0, true, 1, 1⟩ : PositioningAxes).getY = cbox.getY :=
  c1_locked_w_anchor_preserved_aspect_inverted cbox 4 _ 2
    rfl (by norm_num [cbox]) (by norm_num [cbox]) (by norm_num [cbox])
    (by norm_num [cbox]) (by norm_num)
    (by norm_num [cbox, PositioningAxes.setW, PositioningAxes.axaspect,
      PositioningAxes.aspect, PositioningAxes.figaspect, qdiv, bind,
      Except.bind, pure, Except.pure])
    (by norm_num [cbox, PositioningAxes.aspect, PositioningAxes.figaspect,
      qdiv, bind, Except.bind, pure, Except.pure])

lemma except_bind_ok {α β : Type} (x : α) (f : α → Except PosErr β) :
    (Except.ok x).bind f = f x := rfl

lemma except_bindM_ok {α β : Type} (x : α) (f : α → Except PosErr β) :
    (Bind.bind (Except.ok x) f : Except PosErr β) = f x := rfl

lemma setW_setW_locked_aspect (a : PositioningAxes)
    (hl : a.lockedAspect = true) (hfw : a.figW ≠ 0) (hfh : a.figH ≠ 0)
    (hw : a.w ≠ 0) (hh : a.h ≠ 0) (w1 w2 : ℚ) (h1 : w1 ≠ 0) (h2 : w2 ≠ 0) :
    (a.setW w1).bind (fun a1 => (a1.setW w2).bind PositioningAxes.aspect) =
      a.aspect := by
  rw [a.setW_locked_ok hl hfw hfh hw hh w1, except_bind_ok]
  rw [setW_locked_aspect
    { a with
      xll := a.xll + a.anchorX * (a.w - w1),
      yll := a.yll + a.anchorY * (a.h - w1 * (a.w / a.h)),
      w := w1,
      h := w1 * (a.w / a.h) }
    hl hfw hfh h1 (mul_ne_zero h1 (div_ne_zero hw hh)) w2 h2]
  rw [a.aspect_ok hfh hh]
  congr 1
  dsimp only
  field_simp
  ring

/-- C10: under aspect lock (nonzero dimensions throughout), one `w` resize
transforms the real aspect ratio `A` into `container_aspect^2 / A`, and a
second `w` resize restores `get_aspect_ratio()` exactly to the value
before the first resize. -/
theorem c10_double_locked_resize_involution :
    ∀ (a : PositioningAxes) (w1 w2 : ℚ),
      a.lockedAspect = true → a.w ≠ 0 → a.h ≠ 0 → a.figW ≠ 0 → a.figH ≠ 0 →
      w1 ≠ 0 → w2 ≠ 0 →
      ((a.setW w1).bind (fun a1 => (a1.setW w2).bind PositioningAxes.aspect)
          = a.aspect) ∧
      (∀ A0 : ℚ, a.aspect = .ok A0 →
        (a.setW w1).bind PositioningAxes.aspect =
          .ok ((a.figW / a.figH) ^ 2 / A0)) := by
  intro a w1 w2 hl hw hh hfw hfh h1 h2
  refine ⟨setW_setW_locked_aspect a hl hfw hfh hw hh w1 w2 h1 h2, ?_⟩
  intro A0 hA
  have hA0 : A0 = a.figW / a.figH * (a.w / a.h) := by
    have hok := a.aspect_ok hfh hh
    rw [hA] at hok
    exact Except.ok.inj hok
  rw [setW_locked_aspect a hl hfw hfh hw hh w1 h1, hA0]
  congr 1
  field_simp
  ring

/-- Witness for C10: the locked box `cbox` (aspect `2`) resized to width
`4` and then to width `3`. -/
theorem c10_witness :
    ((cbox.setW 4).bind (fun a1 => (a1.setW 3).bind PositioningAxes.aspect)
        = cbox.aspect) ∧
    ((cbox.setW 4).bind PositioningAxes.aspect =
      .ok ((cbox.figW / cbox.figH) ^ 2 / 2)) :=
  ⟨(c10_double_locked_resize_involution cbox 4 3 rfl (by norm_num [cbox])
      (by norm_num [cbox]) (by norm_num [cbox]) (by norm_num [cbox])
      (by norm_num) (by norm_num)).1,
    (c10_double_locked_resize_involution cbox 4 3 rfl (by norm_num [cbox])
      (by norm_num [cbox]) (by norm_num [cbox]) (by norm_num [cbox])
      (by norm_num) (by norm_num)).2 2
      (by norm_num [cbox, PositioningAxes.aspect, PositioningAxes.figaspect,
        qdiv, bind, Except.bind, pure, Except.pure])⟩

/-- Counterexample to C3: on the aspect-locked box `cbox` (nonzero width
`2` and height `1`), `set_aspect_ratio(3, fix_height=False)` followed by
`get_aspect_ratio()` returns `1/2`, not the target `3`: the `h` setter's
own lock coupling overrides the requested ratio. -/
theorem c3_counterexample :
    (cbox.set_aspect_ratio 3 false).bind PositioningAxes.aspect =
      .ok (1/2) ∧ (1/2 : ℚ) ≠ 3 := by
  refine ⟨?_, by norm_num⟩
  norm_num [cbox, PositioningAxes.set_aspect_ratio, PositioningAxes.aspect,
    PositioningAxes.figaspect, PositioningAxes.axaspect,
    PositioningAxes.setH, qdiv, bind, Except.bind, pure, Except.pure]

/-- C3 (amended): with `aspect_locked` false (and nonzero width, height and
container dimensions), `set_aspect_ratio(A, fix_height)` followed by
`get_aspect_ratio()` returns exactly `A` for every positive target `A`,
regardless of whether `fix_height` is true or false. -/
theorem c3_set_aspect_roundtrip_unlocked :
    ∀ (a : PositioningAxes) (A : ℚ) (fh : Bool),
      a.lockedAspect = false → a.w ≠ 0 → a.h ≠ 0 → a.figW ≠ 0 →
      a.figH ≠ 0 → 0 < A →
      (a.set_aspect_ratio A fh).bind PositioningAxes.aspect = .ok A := by
  intro a A fh hl hw hh hfw hfh hApos
  have hA : A ≠ 0 := ne_of_gt hApos
  have hfa : a.figW / a.figH ≠ 0 := div_ne_zero hfw hfh
  have haxa : A / (a.figW / a.figH) ≠ 0 := div_ne_zero hA hfa
  rw [PositioningAxes.set_aspect_ratio, a.figaspect_ok hfh]
  simp only [except_bindM_ok]
  rw [show qdiv A (a.figW / a.figH) = .ok (A / (a.figW / a.figH)) from by
    simp [qdiv, hfa]]
  simp only [except_bindM_ok]
  cases fh with
  | true =>
    simp only [if_pos]
    rw [a.setW_unlocked_ok hl, except_bind_ok]
    rw [PositioningAxes.aspect_ok
      { a with
        xll := a.xll + a.anchorX * (a.w - a.h * (A / (a.figW / a.figH))),
        w := a.h * (A / (a.figW / a.figH)) } hfh hh]
    congr 1
    dsimp only
    field_simp
    ring
  | false =>
    simp only [Bool.false_eq_true, if_neg, not_false_iff]
    rw [show qdiv a.w (A / (a.figW / a.figH)) =
        .ok (a.w / (A / (a.figW / a.figH))) from by simp [qdiv, haxa]]
    simp only [except_bindM_ok]
    rw [a.setH_unlocked_ok hl, except_bind_ok]
    rw [PositioningAxes.aspect_ok
      { a with
        yll := a.yll + a.anchorY * (a.h - a.w / (A / (a.figW / a.figH))),
        h := a.w / (A / (a.figW / a.figH)) } hfh
      (div_ne_zero hw haxa)]
    congr 1
    dsimp only
    field_simp
    ring

/-- Witness for amended C3: the unlocked box `ubox` with target ratio `3`,
for both values of `fix_height`. -/
theorem c3_witness :
    (ubox.set_aspect_ratio 3 true).bind PositioningAxes.aspect = .ok 3 ∧
    (ubox.set_aspect_ratio 3 false).bind PositioningAxes.aspect = .ok 3 :=
  ⟨c3_set_aspect_roundtrip_unlocked ubox 3 true rfl (by norm_num [ubox])
      (by norm_num [ubox]) (by norm_num [ubox]) (by norm_num [ubox])
      (by norm_num),
    c3_set_aspect_roundtrip_unlocked ubox 3 false rfl (by norm_num [ubox])
      (by norm_num [ubox]) (by norm_num [ubox]) (by norm_num [ubox])
      (by norm_num)⟩
